import Mathlib

/-!
Verification development for the real-time WebSocket layer of the
fullstack-modern backend template (src/templates/fullstack-modern/backend/src/websocket.rs).

The Rust code is shallowly embedded: `HashMap` becomes an association list with
unique keys maintained by `mapInsert`/`mapErase`, `Uuid` becomes `Nat`,
`chrono::DateTime<Utc>` becomes `Nat`, and every delivery performed through a
`broadcast::Sender` is recorded as an explicit `(recipient, message)` event.

Two behaviours of the tokio runtime are modelled explicitly because the code's
meaning depends on them. First, `add_connection` and `remove_connection` call
`broadcast_to_all` — which awaits `self.connections.read()` — while the same
task still holds the `self.connections.write()` guard; on tokio's `RwLock` a
read guard is not granted while a write guard is outstanding, and the write
guard cannot be released until the function returns, so the call self-deadlocks
after mutating the map and before any presence broadcast. A minimal lock model
(`LockState`/`acquireRead`) derives this: the two functions return a
`CallResult` recording the map content at the blocking point, the (empty) list
of deliveries performed, and `completed = false`. Second, the bounded
per-connection queue `tokio::sync::broadcast::channel(100)` rounds its
requested capacity up to the next power of two, so it retains 128 values; a
send onto a full channel overwrites the OLDEST retained value, and a lagging
receiver's next `recv` returns a `Lagged` error.
-/

namespace WsModel

/-- Rust `uuid::Uuid`, modelled as a natural number. -/
abbrev Uuid := Nat

/-- Rust `chrono::DateTime<chrono::Utc>`, modelled as a natural number. -/
abbrev Timestamp := Nat

/-- The `WsMessage` enum of websocket.rs (lines 19-81), one constructor per variant. -/
inductive WsMessage where
  | ping
  | pong
  | chatMessage (chat_id : Uuid) (message_id : Uuid) (content : String)
      (sender_id : Uuid) (timestamp : Timestamp)
  | typingStart (chat_id : Uuid) (user_id : Uuid)
  | typingStop (chat_id : Uuid) (user_id : Uuid)
  | notif (id : Uuid) (title : String) (message : String)
      (notification_type : String) (timestamp : Timestamp)
  | userOnline (user_id : Uuid)
  | userOffline (user_id : Uuid)
  | errorMsg (message : String) (code : Option String)
  | success (message : String)
  deriving DecidableEq, Repr

/-- Lookup in the association-list model of `HashMap`: `map.get(k)`. -/
def mapFind? {β : Type} (m : List (Uuid × β)) (k : Uuid) : Option β :=
  match m with
  | [] => none
  | (k₁, v) :: rest => if k₁ = k then some v else mapFind? rest k

/-- `map.insert(k, v)` of `HashMap`: replaces the value when the key is present,
appends the pair otherwise. -/
def mapInsert {β : Type} (m : List (Uuid × β)) (k : Uuid) (v : β) : List (Uuid × β) :=
  match m with
  | [] => [(k, v)]
  | (k₁, v₁) :: rest => if k₁ = k then (k, v) :: rest else (k₁, v₁) :: mapInsert rest k v

/-- `map.remove(k)` of `HashMap`: drops the entry for `k` when present. -/
def mapErase {β : Type} (m : List (Uuid × β)) (k : Uuid) : List (Uuid × β) :=
  match m with
  | [] => []
  | (k₁, v₁) :: rest => if k₁ = k then rest else (k₁, v₁) :: mapErase rest k

/-- The `ConnectionManager` state (websocket.rs lines 84-90): `connections` maps a
user ID to its broadcast sender (modelled as a channel ID), `chat_participants`
maps a chat ID to the `Vec<Uuid>` of member user IDs. -/
structure ConnectionManager where
  connections : List (Uuid × Uuid)
  chat_participants : List (Uuid × List Uuid)
  deriving DecidableEq, Repr

/-- `ConnectionManager::new()` (websocket.rs lines 99-104). -/
def ConnectionManager.new : ConnectionManager := ⟨[], []⟩

/-- A delivery event: the recipient user's channel received the message. -/
abbrev Delivery := Uuid × WsMessage

/-- State of the `connections` `tokio::sync::RwLock` as seen by the task about
to acquire it: either no guard is outstanding, or the task itself still holds
the write guard. -/
inductive LockState where
  | unlocked
  | writeHeld
  deriving DecidableEq, Repr

/-- Acquiring a read guard on a tokio `RwLock`: granted when no write guard is
outstanding. When the SAME task still holds the write guard, the read
acquisition waits for a guard that can only be dropped after this very await
returns — it blocks forever. `none` models that self-deadlock. -/
def acquireRead : LockState → Option Unit
  | .unlocked => some ()
  | .writeHeld => none

/-- `broadcast_to_all` (websocket.rs lines 144-149): acquires
`self.connections.read()`, then sends the message to every registered channel.
`none` when the read acquisition blocks forever. -/
def broadcast_to_all (connLock : LockState) (cm : ConnectionManager)
    (message : WsMessage) : Option (List Delivery) :=
  match acquireRead connLock with
  | none => none
  | some _ => some (cm.connections.map (fun p => (p.1, message)))

/-- Outcome of a registry call that may block forever: the `connections` map
content at the point the call ended or blocked, the deliveries performed up to
that point, and whether the call returned at all. -/
structure CallResult where
  state : ConnectionManager
  events : List Delivery
  completed : Bool
  deriving DecidableEq, Repr

/-- `add_connection` (websocket.rs lines 106-112): takes the `connections`
write guard, inserts the sender under the user ID, then — with the write guard
still held to the end of the function — awaits `broadcast_to_all`, whose read
acquisition on the same lock never succeeds: the map is mutated but the
`UserOnline` broadcast never runs and the call never returns. -/
def add_connection (cm : ConnectionManager) (user_id : Uuid) (sender : Uuid) :
    CallResult :=
  let cm₁ := { cm with connections := mapInsert cm.connections user_id sender }
  match broadcast_to_all .writeHeld cm₁ (.userOnline user_id) with
  | some evs => ⟨cm₁, evs, true⟩
  | none => ⟨cm₁, [], false⟩

/-- `remove_connection` (websocket.rs lines 114-120): takes the `connections`
write guard, removes the entry for the user ID (a no-op on the map when
absent), then — with the write guard still held — awaits `broadcast_to_all`,
whose read acquisition on the same lock never succeeds: the `UserOffline`
broadcast never runs and the call never returns. -/
def remove_connection (cm : ConnectionManager) (user_id : Uuid) :
    CallResult :=
  let cm₁ := { cm with connections := mapErase cm.connections user_id }
  match broadcast_to_all .writeHeld cm₁ (.userOffline user_id) with
  | some evs => ⟨cm₁, evs, true⟩
  | none => ⟨cm₁, [], false⟩

/-- `send_to_user` (websocket.rs lines 122-127): delivers when the user has a
registered channel, silently does nothing otherwise. -/
def send_to_user (cm : ConnectionManager) (user_id : Uuid) (message : WsMessage) :
    List Delivery :=
  match mapFind? cm.connections user_id with
  | some _ => [(user_id, message)]
  | none => []

/-- The `exclude_user.map_or(true, |excluded| excluded != *user_id)` test of
`send_to_chat` (websocket.rs line 135). -/
def notExcluded (exclude_user : Option Uuid) (uid : Uuid) : Bool :=
  match exclude_user with
  | none => true
  | some excluded => excluded != uid

/-- `send_to_chat` (websocket.rs lines 129-142): for each occurrence of a user ID
in the chat's participant vector, if the user is not the excluded one and has a
registered channel, one copy of the message is sent to it; a chat with no entry
yields no deliveries. -/
def send_to_chat (cm : ConnectionManager) (chat_id : Uuid) (message : WsMessage)
    (exclude_user : Option Uuid) : List Delivery :=
  match mapFind? cm.chat_participants chat_id with
  | none => []
  | some participants =>
      participants.filterMap (fun uid =>
        if notExcluded exclude_user uid && (mapFind? cm.connections uid).isSome then
          some (uid, message)
        else
          none)

/-- `add_user_to_chat` (websocket.rs lines 151-157):
`chat_participants.entry(chat_id).or_insert_with(Vec::new).push(user_id)` —
the user ID is pushed unconditionally, with no membership check. -/
def add_user_to_chat (cm : ConnectionManager) (chat_id : Uuid) (user_id : Uuid) :
    ConnectionManager :=
  match mapFind? cm.chat_participants chat_id with
  | some participants =>
      { cm with chat_participants :=
          mapInsert cm.chat_participants chat_id (participants ++ [user_id]) }
  | none =>
      { cm with chat_participants := mapInsert cm.chat_participants chat_id [user_id] }

/-- `remove_user_from_chat` (websocket.rs lines 159-167): retains the
participants different from the user; when the remaining vector is empty the
chat entry itself is removed; a chat with no entry is left untouched. -/
def remove_user_from_chat (cm : ConnectionManager) (chat_id : Uuid) (user_id : Uuid) :
    ConnectionManager :=
  match mapFind? cm.chat_participants chat_id with
  | none => cm
  | some participants =>
      let remaining := participants.filter (fun id => id != user_id)
      if remaining.isEmpty then
        { cm with chat_participants := mapErase cm.chat_participants chat_id }
      else
        { cm with chat_participants := mapInsert cm.chat_participants chat_id remaining }

/-- `get_online_users` (websocket.rs lines 169-172): the registered user IDs. -/
def get_online_users (cm : ConnectionManager) : List Uuid :=
  cm.connections.map Prod.fst

/-- Output of `handle_websocket_message`: messages sent on the session's own
broadcast sender `_tx`, and deliveries produced through `send_to_chat`. -/
structure RouterOutput where
  toSelf : List WsMessage
  deliveries : List Delivery
  deriving DecidableEq, Repr

/-- `handle_websocket_message` (websocket.rs lines 289-360). The inbound
`ChatMessage` pattern binds only `chat_id` and `content` and discards
`message_id`, `sender_id` and `timestamp` with `..`; the outbound envelope is
rebuilt with a freshly generated `Uuid::new_v4()` (`freshId`), the server clock
(`now`) and the authenticated `user_id` as sender, and sent to the chat with
the sender excluded. Typing indicators are restamped with the authenticated
`user_id` and likewise sent with the sender excluded. `Ping` answers `Pong` on
the session's own sender; every other variant is ignored. -/
def handle_websocket_message (message : WsMessage) (user_id : Uuid)
    (cm : ConnectionManager) (freshId : Uuid) (now : Timestamp) : RouterOutput :=
  match message with
  | .ping => ⟨[.pong], []⟩
  | .chatMessage chat_id _ content _ _ =>
      let broadcast_message := WsMessage.chatMessage chat_id freshId content user_id now
      ⟨[], send_to_chat cm chat_id broadcast_message (some user_id)⟩
  | .typingStart chat_id _ =>
      ⟨[], send_to_chat cm chat_id (.typingStart chat_id user_id) (some user_id)⟩
  | .typingStop chat_id _ =>
      ⟨[], send_to_chat cm chat_id (.typingStop chat_id user_id) (some user_id)⟩
  | _ => ⟨[], []⟩

/-- An inbound transport frame as seen by `authenticate_websocket`
(websocket.rs lines 263-287). A text frame carries the result of the
`serde_json::from_str::<AuthMessage>` parse — `some token` when the payload is
a well-formed `{"token": ...}` object, `none` when malformed — so the JSON
parser itself is not re-implemented. `recvFailed` is an `Err(_)` item on the
stream. -/
inductive InFrame where
  | text (parsedToken : Option String)
  | binary
  | close
  | pingFrame
  | pongFrame
  | recvFailed
  deriving DecidableEq, Repr

/-- `authenticate_websocket` (websocket.rs lines 263-287), over the list of
inbound frames and an abstract JWT verifier (`crate::auth::verify_token`,
consumed as a black box returning the claims' subject or failing): it examines
only the first frame; no frame at all, a non-text frame, a malformed payload
and a rejected token each produce a distinct error string. -/
def authenticate_websocket (verify : String → Option Uuid) (frames : List InFrame) :
    Except String Uuid :=
  match frames with
  | [] => .error "No authentication message received"
  | frame :: _ =>
      match frame with
      | .text parsedToken =>
          match parsedToken with
          | none => .error "Invalid authentication message format"
          | some token =>
              match verify token with
              | none => .error "Invalid or expired token"
              | some uid => .ok uid
      | _ => .error "Expected text message for authentication"

/-- Result of the set-up phase of `websocket_connection`: the manager state
afterwards, the frames the session wrote directly to its transport, the
delivery events raised, and the user ID registered (when authentication
succeeded). -/
structure AuthPhaseResult where
  state : ConnectionManager
  transportOut : List WsMessage
  events : List Delivery
  registered : Option Uuid
  deriving DecidableEq, Repr

/-- The authentication and registration phase of `websocket_connection`
(websocket.rs lines 183-207): on authentication failure an `Error` envelope
with the fixed code "AUTH_FAILED" is sent best-effort on the transport and the
function returns with the manager untouched — `add_connection` is never
reached. On success the session awaits `add_connection`, which self-deadlocks
on its own lock (see `add_connection`), so the set-up phase never completes:
`none`. -/
def websocket_connection_auth (verify : String → Option Uuid) (frames : List InFrame)
    (cm : ConnectionManager) (channelId : Uuid) : Option AuthPhaseResult :=
  match authenticate_websocket verify frames with
  | .error e =>
      some ⟨cm, [.errorMsg e (some "AUTH_FAILED")], [], none⟩
  | .ok user_id =>
      let r := add_connection cm user_id channelId
      if r.completed then
        some ⟨r.state, [], r.events ++ [(user_id, .success "Connected successfully")],
          some user_id⟩
      else
        none

/-- The clean-up run by `websocket_connection` after `tokio::select!` returns
(websocket.rs lines 259-260): the single statement
`services.connection_manager.remove_connection(&user_id).await` — nothing else;
in particular `remove_user_from_chat` is never invoked here. -/
def websocket_connection_cleanup (cm : ConnectionManager) (user_id : Uuid) :
    CallResult :=
  remove_connection cm user_id

/-- One operation on the Room Membership Index. -/
inductive ChatOp where
  | join (chat_id : Uuid) (user_id : Uuid)
  | leave (chat_id : Uuid) (user_id : Uuid)
  deriving DecidableEq, Repr

/-- Run a sequence of `add_user_to_chat`/`remove_user_from_chat` calls. -/
def runChatOps (ops : List ChatOp) (cm : ConnectionManager) : ConnectionManager :=
  match ops with
  | [] => cm
  | .join c u :: rest => runChatOps rest (add_user_to_chat cm c u)
  | .leave c u :: rest => runChatOps rest (remove_user_from_chat cm c u)

/-- No chat entry maps to an empty participant vector (the "no dangling empty
rooms" invariant). -/
def NoEmptyRooms (cm : ConnectionManager) : Prop :=
  ∀ p ∈ cm.chat_participants, p.2 ≠ []

/-- The per-connection bounded outbound queue,
`broadcast::channel::<WsMessage>(100)` (websocket.rs line 185), modelled from
the documented semantics of `tokio::sync::broadcast`: a ring buffer of the given
capacity; `buffer` holds the retained values oldest-first and `lagged` counts
the values the (single) receiver has missed because they were overwritten. -/
structure BroadcastChannel where
  capacity : Nat
  buffer : List WsMessage
  lagged : Nat
  deriving DecidableEq, Repr

/-- Doubling loop for `nextPow2`; `fuel` bounds the recursion and `n` of it is
always enough. -/
def nextPow2Loop (fuel : Nat) (power : Nat) (n : Nat) : Nat :=
  match fuel with
  | 0 => power
  | fuel₁ + 1 => if power < n then nextPow2Loop fuel₁ (power * 2) n else power

/-- The least power of two that is at least `n` (for `n ≥ 1`): the rounding
tokio's `broadcast::channel` applies to its requested capacity. -/
def nextPow2 (n : Nat) : Nat :=
  nextPow2Loop n 1 n

/-- `broadcast::channel(cap)`: tokio rounds the requested capacity up to the
next power of two, so `channel(100)` actually retains 128 values; the fresh
channel has no backlog. -/
def BroadcastChannel.new (cap : Nat) : BroadcastChannel := ⟨nextPow2 cap, [], 0⟩

/-- `tx.send(m)` on a tokio broadcast channel: never blocks and never fails
while a receiver exists; when the buffer is full the OLDEST retained value is
overwritten and the lagging receiver's miss count grows. -/
def bsend (ch : BroadcastChannel) (m : WsMessage) : BroadcastChannel :=
  if ch.buffer.length < ch.capacity then
    { ch with buffer := ch.buffer ++ [m] }
  else
    { ch with buffer := ch.buffer.tail ++ [m], lagged := ch.lagged + 1 }

/-- Outcome of one `rx.recv().await` on the modelled broadcast channel. -/
inductive RecvResult where
  | msg (m : WsMessage)
  | laggedErr (n : Nat)
  | pending
  deriving DecidableEq, Repr

/-- `rx.recv()`: a receiver that has missed `n > 0` values gets
`Err(RecvError::Lagged(n))` once and is repositioned to the oldest retained
value; otherwise the oldest buffered value is returned, or the call stays
pending on an empty buffer. -/
def brecv (ch : BroadcastChannel) : RecvResult × BroadcastChannel :=
  if ch.lagged ≠ 0 then
    (.laggedErr ch.lagged, { ch with lagged := 0 })
  else
    match ch.buffer with
    | [] => (.pending, ch)
    | m :: rest => (.msg m, { ch with buffer := rest })

/-- The `sender_task` loop (websocket.rs lines 211-222),
`while let Ok(message) = rx.recv().await { ... }`, run once the stalled
consumer resumes: it forwards buffered messages to the transport until the
buffer is drained, and EXITS on the first `Err` — including `Lagged` — because
of the `while let Ok` pattern. Returns the messages actually written. `fuel`
bounds the recursion; `drainResumed` supplies enough. -/
def sender_task_loop (fuel : Nat) (ch : BroadcastChannel) : List WsMessage :=
  match fuel with
  | 0 => []
  | fuel₁ + 1 =>
      match brecv ch with
      | (.msg m, ch₁) => m :: sender_task_loop fuel₁ ch₁
      | (.laggedErr _, _) => []
      | (.pending, _) => []

/-- The messages the resumed consumer delivers before its queue is empty or its
loop exits. -/
def drainResumed (ch : BroadcastChannel) : List WsMessage :=
  sender_task_loop (ch.buffer.length + 1) ch

/-- Number of occurrences of a user ID in a list (used to count duplicate
participant entries). -/
def countOcc (v : Uuid) (l : List Uuid) : Nat :=
  (l.filter (fun a => a == v)).length

/-- Number of deliveries addressed to recipient `v` in an event list. -/
def countRecip (v : Uuid) (ds : List Delivery) : Nat :=
  (ds.filter (fun d => d.1 == v)).length

/-! ## Helper lemmas about the association-list model of `HashMap` -/

theorem mapFind?_mapInsert_self {β : Type} (m : List (Uuid × β)) (k : Uuid) (v : β) :
    mapFind? (mapInsert m k v) k = some v := by
  induction m with
  | nil => simp [mapInsert, mapFind?]
  | cons p rest ih =>
      by_cases h : p.1 = k
      · simp [mapInsert, mapFind?, h]
      · simp [mapInsert, mapFind?, h, ih]

theorem mapErase_of_find_none {β : Type} {m : List (Uuid × β)} {k : Uuid}
    (h : mapFind? m k = none) : mapErase m k = m := by
  induction m with
  | nil => rfl
  | cons p rest ih =>
      by_cases hp : p.1 = k
      · simp [mapFind?, hp] at h
      · simp [mapFind?, hp] at h
        simp [mapErase, hp, ih h]

theorem mapErase_mapInsert_of_find_none {β : Type} {m : List (Uuid × β)} {k : Uuid}
    (v : β) (h : mapFind? m k = none) : mapErase (mapInsert m k v) k = m := by
  induction m with
  | nil => simp [mapInsert, mapErase]
  | cons p rest ih =>
      by_cases hp : p.1 = k
      · simp [mapFind?, hp] at h
      · simp [mapFind?, hp] at h
        simp [mapInsert, mapErase, hp, ih h]

theorem mapInsert_of_find_some {β : Type} {m : List (Uuid × β)} {k : Uuid} {v : β}
    (h : mapFind? m k = some v) : mapInsert m k v = m := by
  induction m with
  | nil => simp [mapFind?] at h
  | cons p rest ih =>
      obtain ⟨k₁, v₁⟩ := p
      by_cases hp : k₁ = k
      · subst hp
        simp [mapFind?] at h
        simp [mapInsert, h]
      · simp [mapFind?, hp] at h
        simp [mapInsert, hp, ih h]

theorem mapFind?_mem {β : Type} {m : List (Uuid × β)} {k : Uuid} {v : β}
    (h : mapFind? m k = some v) : (k, v) ∈ m := by
  induction m with
  | nil => simp [mapFind?] at h
  | cons p rest ih =>
      obtain ⟨k₁, v₁⟩ := p
      by_cases hp : k₁ = k
      · subst hp
        simp [mapFind?] at h
        subst h
        exact List.mem_cons_self _ _
      · simp [mapFind?, hp] at h
        exact List.mem_cons_of_mem _ (ih h)

/-! ## Claim theorems -/

/-- C1, counterexample. Concrete state: user 7 is registered and is a member of
room 5. After the Closing→Closed cleanup of `websocket_connection` the Room
Membership Index — guarded by its own, untouched lock — still records user 7
as a member of room 5: the cleanup does not perform `Leave` from the rooms the
session had joined, refuting the claim as stated. -/
theorem C1_counterexample :
    mapFind? (websocket_connection_cleanup ⟨[(7, 1)], [(5, [7])]⟩ 7).state.chat_participants 5
      = some [7] := by
  decide

/-- C1, amended. The Closing→Closed cleanup of `websocket_connection` is the
single `remove_connection` call after `tokio::select!` returns: it erases the
session's registry entry (the `Unregister` map effect, applied once), but it
performs NO `Leave` — the Room Membership Index is left completely unchanged —
and, because `remove_connection` awaits a read of the `connections` lock while
still holding its write guard, it delivers no user-offline broadcast and never
completes. -/
theorem C1_cleanup_unregister_only (cm : ConnectionManager) (u : Uuid) :
    (websocket_connection_cleanup cm u).state.chat_participants = cm.chat_participants ∧
    (websocket_connection_cleanup cm u).state.connections = mapErase cm.connections u ∧
    (websocket_connection_cleanup cm u).events = [] ∧
    (websocket_connection_cleanup cm u).completed = false := by
  refine ⟨rfl, rfl, rfl, rfl⟩

/-- C3, code evaluated at the failing input. Starting from the empty manager,
calling `add_user_to_chat(1, 2)` twice yields the participant vector `[2, 2]`:
the second (duplicate) join is NOT a no-op — it appends a second occurrence,
contradicting the documented set semantics of `chat_participants`. -/
theorem C3_duplicate_join_appends :
    (add_user_to_chat (add_user_to_chat ConnectionManager.new 1 2) 1 2).chat_participants
      = [(1, [2, 2])] := by
  decide

/-- C7. Whenever `authenticate_websocket` fails — for ANY verifier, ANY inbound
frame list and ANY failure reason `e` (malformed message, non-text frame,
rejected token, or no message at all) — the session writes exactly one error
envelope whose code is the single generic "AUTH_FAILED", registers nothing
(`registered = none`, `add_connection` is never reached), raises no delivery
events, and leaves the Connection Registry state untouched. -/
theorem C7_auth_failure_generic_and_unregistered
    (verify : String → Option Uuid) (frames : List InFrame)
    (cm : ConnectionManager) (channelId : Uuid) (e : String)
    (h : authenticate_websocket verify frames = .error e) :
    websocket_connection_auth verify frames cm channelId =
      some ⟨cm, [.errorMsg e (some "AUTH_FAILED")], [], none⟩ := by
  simp [websocket_connection_auth, h]

/-- C7, witness: the verifier rejects the concrete credential "garbage-token";
the session ends with the generic AUTH_FAILED envelope and the registry (here
empty) has zero entries for the connection. -/
theorem C7_witness :
    authenticate_websocket (fun _ => none) [.text (some "garbage-token")]
        = .error "Invalid or expired token" ∧
    websocket_connection_auth (fun _ => none) [.text (some "garbage-token")]
        ConnectionManager.new 0 =
      some ⟨ConnectionManager.new,
       [.errorMsg "Invalid or expired token" (some "AUTH_FAILED")], [], none⟩ :=
  ⟨rfl, C7_auth_failure_generic_and_unregistered (fun _ => none)
    [.text (some "garbage-token")] ConnectionManager.new 0
    "Invalid or expired token" rfl⟩

/-- Erasing a key keeps every entry an entry of the original list. -/
theorem mem_of_mem_mapErase {β : Type} {m : List (Uuid × β)} {k : Uuid} {p : Uuid × β}
    (hp : p ∈ mapErase m k) : p ∈ m := by
  induction m with
  | nil => simp [mapErase] at hp
  | cons q rest ih =>
      by_cases hq : q.1 = k
      · simp only [mapErase, hq, if_pos] at hp
        exact List.mem_cons_of_mem _ hp
      · simp only [mapErase, hq, if_neg, not_false_iff, List.mem_cons] at hp
        cases hp with
        | inl h1 => exact h1 ▸ List.mem_cons_self _ _
        | inr h2 => exact List.mem_cons_of_mem _ (ih h2)

/-- Inserting a non-empty vector preserves the no-empty-entries property. -/
theorem noEmpty_mapInsert {m : List (Uuid × List Uuid)} {k : Uuid} {v : List Uuid}
    (hv : v ≠ []) (h : ∀ p ∈ m, p.2 ≠ []) : ∀ p ∈ mapInsert m k v, p.2 ≠ [] := by
  induction m with
  | nil =>
      intro p hp
      simp [mapInsert] at hp
      simp [hp, hv]
  | cons q rest ih =>
      intro p hp
      by_cases hq : q.1 = k
      · simp only [mapInsert, hq, if_pos, List.mem_cons] at hp
        cases hp with
        | inl h1 => simp [h1, hv]
        | inr h2 => exact h p (List.mem_cons_of_mem _ h2)
      · simp only [mapInsert, hq, if_neg, not_false_iff, List.mem_cons] at hp
        cases hp with
        | inl h1 => exact h1 ▸ h q (List.mem_cons_self _ _)
        | inr h2 =>
            exact ih (fun r hr => h r (List.mem_cons_of_mem _ hr)) p h2

/-- `add_user_to_chat` preserves the no-empty-rooms invariant: the touched
entry receives a non-empty vector. -/
theorem add_user_to_chat_noEmpty (cm : ConnectionManager) (chat_id user_id : Uuid)
    (h : NoEmptyRooms cm) : NoEmptyRooms (add_user_to_chat cm chat_id user_id) := by
  cases hfind : mapFind? cm.chat_participants chat_id with
  | none =>
      intro p hp
      simp only [add_user_to_chat, hfind] at hp
      exact noEmpty_mapInsert (by simp) h p hp
  | some ps =>
      intro p hp
      simp only [add_user_to_chat, hfind] at hp
      exact noEmpty_mapInsert (by simp) h p hp

/-- `remove_user_from_chat` preserves the no-empty-rooms invariant: an entry
emptied by the removal is deleted rather than kept empty. -/
theorem remove_user_from_chat_noEmpty (cm : ConnectionManager) (chat_id user_id : Uuid)
    (h : NoEmptyRooms cm) : NoEmptyRooms (remove_user_from_chat cm chat_id user_id) := by
  cases hfind : mapFind? cm.chat_participants chat_id with
  | none =>
      intro p hp
      simp only [remove_user_from_chat, hfind] at hp
      exact h p hp
  | some ps =>
      by_cases hemp : (ps.filter (fun id => id != user_id)).isEmpty
      · intro p hp
        simp only [remove_user_from_chat, hfind, hemp, if_pos] at hp
        exact h p (mem_of_mem_mapErase hp)
      · intro p hp
        simp only [remove_user_from_chat, hfind, hemp, if_neg, not_false_iff] at hp
        refine noEmpty_mapInsert ?_ h p hp
        intro hnil
        rw [hnil] at hemp
        exact hemp rfl

/-- Every state reachable by join/leave operations from a state with no empty
rooms has no empty rooms. -/
theorem runChatOps_noEmpty (ops : List ChatOp) :
    ∀ cm : ConnectionManager, NoEmptyRooms cm → NoEmptyRooms (runChatOps ops cm) := by
  induction ops with
  | nil => intro cm h; exact h
  | cons op rest ih =>
      intro cm h
      cases op with
      | join c u => exact ih _ (add_user_to_chat_noEmpty cm c u h)
      | leave c u => exact ih _ (remove_user_from_chat_noEmpty cm c u h)

/-- C8. `remove_user_from_chat` deletes a room entry that becomes empty: (i)
for every state and every room the state does not yet know, `Join` immediately
followed by `Leave` for the same (room, user) pair leaves the room absent from
the index again; and (ii) no index state reachable by join/leave operations
from the empty manager maps a room ID to an empty member vector. -/
theorem C8_empty_room_cleanup (cm : ConnectionManager) (chat_id user_id : Uuid)
    (ops : List ChatOp) :
    (mapFind? cm.chat_participants chat_id = none →
      mapFind? (remove_user_from_chat (add_user_to_chat cm chat_id user_id)
          chat_id user_id).chat_participants chat_id = none) ∧
    NoEmptyRooms (runChatOps ops ConnectionManager.new) := by
  constructor
  · intro h
    have h1 : add_user_to_chat cm chat_id user_id
        = { cm with chat_participants := mapInsert cm.chat_participants chat_id [user_id] } := by
      simp [add_user_to_chat, h]
    rw [h1]
    have h2 : mapFind? (mapInsert cm.chat_participants chat_id [user_id]) chat_id
        = some [user_id] := mapFind?_mapInsert_self _ _ _
    have h3 : ([user_id].filter (fun id => id != user_id)) = [] := by simp
    simp only [remove_user_from_chat, h2, h3, List.isEmpty_nil, if_pos]
    rw [mapErase_mapInsert_of_find_none _ h]
    exact h
  · refine runChatOps_noEmpty ops ConnectionManager.new ?_
    intro p hp
    simp [ConnectionManager.new] at hp

/-- C8, witness: joining then leaving room 4 as user 9 from the empty manager
leaves room 4 absent from the index. -/
theorem C8_witness :
    mapFind? (remove_user_from_chat (add_user_to_chat ConnectionManager.new 4 9)
        4 9).chat_participants 4 = none :=
  (C8_empty_room_cleanup ConnectionManager.new 4 9 []).1 rfl

/-- C6. The code contradicts the claimed (and spec-documented) contract for
every input, absent user included: `remove_connection` erases the map entry
while holding the `connections` write guard and then awaits
`broadcast_to_all`, whose `connections.read()` cannot be granted while that
write guard is outstanding — a self-deadlock. No `UserOffline` broadcast is
ever delivered and the call never returns (`completed = false`), so no
`Register`/`Unregister` sequence with at least one operation completes, and
`get_online_users` can never again be consulted for a net effect: the
"no-op, no error" unregister the claim describes is unimplementable by this
code. -/
theorem C6_unregister_deadlocks (cm : ConnectionManager) (u : Uuid) :
    (remove_connection cm u).completed = false ∧
    (remove_connection cm u).events = [] ∧
    (remove_connection cm u).state.connections = mapErase cm.connections u := by
  refine ⟨rfl, rfl, rfl⟩

set_option maxRecDepth 40000 in
/-- C5, counterexample. tokio's `broadcast::channel(100)` rounds its capacity
up to the next power of two, 128. So with 101 messages, `userOnline 0` through
`userOnline 100`, sent into the fresh channel of websocket.rs line 185 while
the consumer is stalled, NOTHING is dropped (no lag, the newest message and
the whole backlog retained) and the resumed consumer delivers all 101 messages
— more than the claimed capacity K = 100 — refuting both "sending K+1 messages
drops exactly the (K+1)th" and "no more than K messages are delivered once the
consumer resumes". -/
theorem C5_counterexample :
    ((List.range 101).foldl (fun ch i => bsend ch (.userOnline i))
        (BroadcastChannel.new 100)).lagged = 0 ∧
    WsMessage.userOnline 100 ∈
      ((List.range 101).foldl (fun ch i => bsend ch (.userOnline i))
        (BroadcastChannel.new 100)).buffer ∧
    drainResumed ((List.range 101).foldl (fun ch i => bsend ch (.userOnline i))
        (BroadcastChannel.new 100))
      = (List.range 101).map (fun i => WsMessage.userOnline i) := by
  refine ⟨by decide, by decide, by decide⟩

set_option maxRecDepth 40000 in
/-- C5, amended. The outbound queue is `broadcast::channel(100)`, whose actual
capacity is 128 (tokio rounds up to the next power of two), and sending never
blocks the sender. Sending 101 messages to a stalled consumer therefore drops
nothing and all 101 are delivered on resume; overflow begins with the 129th
send, which drops the OLDEST message (the 1st, not the newest), retaining the
newest 128 with a recorded lag of 1 — and after an overflow the resumed
consumer's `while let Ok(message) = rx.recv()` loop receives the `Lagged`
error first and exits, delivering NONE of the retained messages. -/
theorem C5_drop_oldest :
    ((List.range 129).foldl (fun ch i => bsend ch (.userOnline i))
        (BroadcastChannel.new 100)).capacity = 128 ∧
    ((List.range 129).foldl (fun ch i => bsend ch (.userOnline i))
        (BroadcastChannel.new 100)).buffer
      = (List.range 128).map (fun i => WsMessage.userOnline (i + 1)) ∧
    ((List.range 129).foldl (fun ch i => bsend ch (.userOnline i))
        (BroadcastChannel.new 100)).lagged = 1 ∧
    drainResumed ((List.range 129).foldl (fun ch i => bsend ch (.userOnline i))
        (BroadcastChannel.new 100)) = [] := by
  refine ⟨by decide, by decide, by decide, by decide⟩

/-- C10. On any manager state satisfying the no-empty-rooms invariant (which
all states reachable by join/leave from the empty index satisfy), a
`remove_user_from_chat` for a chat with no index entry, or for a user that is
not a member of the existing entry, returns the state completely unchanged: no
entry is created, no other member is removed, and no error occurs. -/
theorem C10_leave_absent_noop (cm : ConnectionManager) (chat_id user_id : Uuid)
    (hne : NoEmptyRooms cm)
    (habs : ∀ ps, mapFind? cm.chat_participants chat_id = some ps → user_id ∉ ps) :
    remove_user_from_chat cm chat_id user_id = cm := by
  cases hfind : mapFind? cm.chat_participants chat_id with
  | none => simp [remove_user_from_chat, hfind]
  | some ps =>
      have hnotin : user_id ∉ ps := habs ps hfind
      have hfilter : ps.filter (fun id => id != user_id) = ps := by
        refine List.filter_eq_self.mpr ?_
        intro a ha
        simp only [bne_iff_ne, ne_eq, decide_eq_true_eq]
        intro heq
        exact hnotin (heq ▸ ha)
      have hps : ps ≠ [] := hne (chat_id, ps) (mapFind?_mem hfind)
      have hempty : ps.isEmpty = false := by
        cases ps with
        | nil => exact absurd rfl hps
        | cons a t => rfl
      simp [remove_user_from_chat, hfind, hfilter, hempty,
        mapInsert_of_find_some hfind]

/-- Bridge lemma: `List.filterMap` with an if-some-else-none body is a filter
followed by a map. -/
theorem filterMap_ite {α β : Type} (p : α → Bool) (f : α → β) (l : List α) :
    List.filterMap (fun a => if p a then some (f a) else none) l
      = (l.filter p).map f := by
  induction l with
  | nil => rfl
  | cons a t ih =>
      by_cases h : p a <;>
        simp [List.filterMap_cons, List.filter_cons, h, ih]

/-- `send_to_chat` on a chat with an entry is: keep the occurrences of member
IDs that are not excluded and have a registered channel, and pair each with the
message. -/
theorem send_to_chat_eq_map_filter (cm : ConnectionManager) (chat_id : Uuid)
    (message : WsMessage) (exclude_user : Option Uuid) (ps : List Uuid)
    (h : mapFind? cm.chat_participants chat_id = some ps) :
    send_to_chat cm chat_id message exclude_user
      = (ps.filter (fun uid =>
          notExcluded exclude_user uid && (mapFind? cm.connections uid).isSome)).map
          (fun uid => (uid, message)) := by
  simp only [send_to_chat, h]
  exact filterMap_ite _ _ ps

/-- Every delivery of `send_to_chat` with an excluded user goes to a recipient
different from the excluded user and carries exactly the given message. -/
theorem send_to_chat_not_excluded (cm : ConnectionManager) (chat_id : Uuid)
    (message : WsMessage) (exclude : Uuid) (d : Delivery)
    (hd : d ∈ send_to_chat cm chat_id message (some exclude)) :
    d.1 ≠ exclude ∧ d.2 = message := by
  cases hfind : mapFind? cm.chat_participants chat_id with
  | none => simp [send_to_chat, hfind] at hd
  | some ps =>
      rw [send_to_chat_eq_map_filter cm chat_id message (some exclude) ps hfind] at hd
      obtain ⟨uid, huid, hmap⟩ := List.mem_map.mp hd
      have hfil := List.of_mem_filter huid
      simp only [notExcluded, Bool.and_eq_true, bne_iff_ne, ne_eq] at hfil
      subst hmap
      exact ⟨fun heq => hfil.1 heq.symm, rfl⟩

/-- Counting recipients after pairing each ID with the same message counts the
IDs themselves. -/
theorem countRecip_map_pair (v : Uuid) (message : WsMessage) (l : List Uuid) :
    countRecip v (l.map (fun uid => (uid, message))) = countOcc v l := by
  induction l with
  | nil => rfl
  | cons a t ih =>
      by_cases h : a = v
      · simp [countRecip, countOcc, List.filter_cons, h] at ih ⊢
        omega
      · simp [countRecip, countOcc, List.filter_cons, h] at ih ⊢
        exact ih

/-- Occurrence counting commutes with a filter the counted element passes. -/
theorem countOcc_filter_pos (v : Uuid) (p : Uuid → Bool) (l : List Uuid)
    (hp : p v = true) : countOcc v (l.filter p) = countOcc v l := by
  induction l with
  | nil => rfl
  | cons a t ih =>
      by_cases h : a = v
      · subst h
        simp [countOcc, List.filter_cons, hp] at ih ⊢
        omega
      · by_cases hpa : p a
        · simp [countOcc, List.filter_cons, hpa, h] at ih ⊢
          exact ih
        · simp only [Bool.not_eq_true] at hpa
          simp [countOcc, List.filter_cons, hpa, h] at ih ⊢
          exact ih

/-- An element rejected by the filter does not occur in the filtered list. -/
theorem countOcc_filter_neg (v : Uuid) (p : Uuid → Bool) (l : List Uuid)
    (hp : p v = false) : countOcc v (l.filter p) = 0 := by
  induction l with
  | nil => rfl
  | cons a t ih =>
      by_cases h : a = v
      · subst h
        simp [countOcc, List.filter_cons, hp] at ih ⊢
        exact ih
      · by_cases hpa : p a
        · simp [countOcc, List.filter_cons, hpa, h] at ih ⊢
          exact ih
        · simp only [Bool.not_eq_true] at hpa
          simp [countOcc, List.filter_cons, hpa, h] at ih ⊢
          exact ih

/-- The number of deliveries a non-excluded user receives from `send_to_chat`:
one per occurrence in the participant vector when the user has a registered
channel, zero otherwise. -/
theorem send_to_chat_count (cm : ConnectionManager) (chat_id : Uuid)
    (message : WsMessage) (exclude v : Uuid) (ps : List Uuid)
    (h : mapFind? cm.chat_participants chat_id = some ps) (hv : v ≠ exclude) :
    countRecip v (send_to_chat cm chat_id message (some exclude))
      = if (mapFind? cm.connections v).isSome then countOcc v ps else 0 := by
  rw [send_to_chat_eq_map_filter cm chat_id message (some exclude) ps h]
  rw [countRecip_map_pair]
  by_cases hreg : (mapFind? cm.connections v).isSome
  · have hp : (notExcluded (some exclude) v && (mapFind? cm.connections v).isSome) = true := by
      simp only [notExcluded, Bool.and_eq_true, bne_iff_ne, ne_eq]
      exact ⟨fun heq => hv heq.symm, hreg⟩
    rw [countOcc_filter_pos v _ ps hp]
    simp [hreg]
  · have hp : (notExcluded (some exclude) v && (mapFind? cm.connections v).isSome) = false := by
      simp only [Bool.not_eq_true] at hreg
      simp [hreg]
    rw [countOcc_filter_neg v _ ps hp]
    simp only [Bool.not_eq_true] at hreg
    simp [hreg]

/-- A non-excluded member that has a registered channel does receive the
message from `send_to_chat`. -/
theorem send_to_chat_complete (cm : ConnectionManager) (chat_id : Uuid)
    (message : WsMessage) (exclude v : Uuid) (ps : List Uuid)
    (h : mapFind? cm.chat_participants chat_id = some ps) (hmem : v ∈ ps)
    (hv : v ≠ exclude) (hreg : (mapFind? cm.connections v).isSome) :
    (v, message) ∈ send_to_chat cm chat_id message (some exclude) := by
  rw [send_to_chat_eq_map_filter cm chat_id message (some exclude) ps h]
  refine List.mem_map.mpr ⟨v, ?_, rfl⟩
  refine List.mem_filter.mpr ⟨hmem, ?_⟩
  simp only [notExcluded, Bool.and_eq_true, bne_iff_ne, ne_eq]
  exact ⟨fun heq => hv heq.symm, hreg⟩

/-- C2, counterexample. Concrete state: room 9 has participant vector
`[2, 2, 4]` (user 2 occurs twice — the index allows duplicates), user 2 is
registered while member 4 is not. `send_to_chat` with excluded user 3 delivers
the envelope to member 2 TWICE and to member 4 not at all, refuting
"delivers to every other member exactly once". -/
theorem C2_counterexample :
    send_to_chat ⟨[(2, 1)], [(9, [2, 2, 4])]⟩ 9 .ping (some 3)
      = [(2, .ping), (2, .ping)] := by
  decide

/-- C2, amended. `send_to_chat(room, env, exclude = U)` never delivers to `U`
even when `U` is a member; it is a no-op when the room has no entry; and every
other user receives exactly one copy per occurrence of its ID in the room's
participant vector when it has a registered channel, and nothing otherwise (so
"exactly once" holds precisely for registered members listed once). -/
theorem C2_send_to_chat_spec (cm : ConnectionManager) (chat_id : Uuid)
    (message : WsMessage) (exclude : Uuid) :
    (∀ d ∈ send_to_chat cm chat_id message (some exclude),
        d.1 ≠ exclude ∧ d.2 = message) ∧
    (mapFind? cm.chat_participants chat_id = none →
        send_to_chat cm chat_id message (some exclude) = []) ∧
    (∀ ps, mapFind? cm.chat_participants chat_id = some ps →
      ∀ v, v ≠ exclude →
        countRecip v (send_to_chat cm chat_id message (some exclude))
          = if (mapFind? cm.connections v).isSome then countOcc v ps else 0) := by
  refine ⟨fun d hd => send_to_chat_not_excluded cm chat_id message exclude d hd,
    fun hnone => by simp [send_to_chat, hnone],
    fun ps hps v hv => send_to_chat_count cm chat_id message exclude v ps hps hv⟩

/-- C2, witness: in the state where room 9 holds registered members 1 and 2,
sending with user 1 excluded delivers to member 2 exactly once and the
excluded member 1 receives nothing. -/
theorem C2_witness :
    countRecip 2 (send_to_chat ⟨[(1, 10), (2, 20)], [(9, [1, 2])]⟩ 9 .ping (some 1)) = 1 ∧
    (send_to_chat ⟨[(1, 10), (2, 20)], [(9, [1, 2])]⟩ 9 .ping (some 1)) = [(2, .ping)] := by
  have h := (C2_send_to_chat_spec ⟨[(1, 10), (2, 20)], [(9, [1, 2])]⟩ 9 .ping 1).2.2
    [1, 2] rfl 2 (by decide)
  refine ⟨?_, by decide⟩
  simpa using h

/-- C4. For every manager state, authenticated sender `S` and inbound
`ChatMessage` envelope (whatever `message_id`, `sender_id` and `timestamp` it
carries), the router sends nothing on the session's own channel, and every
delivery carries ONE AND THE SAME outbound envelope — the chat message
restamped with the server-generated `freshId`, the server timestamp `now` and
sender `S` — to a recipient different from `S`; moreover every member of the
room other than `S` that has a registered channel receives that envelope. -/
theorem C4_chat_message_routing (cm : ConnectionManager) (S chat_id inMid inSid : Uuid)
    (content : String) (inTs : Timestamp) (freshId : Uuid) (now : Timestamp) :
    (handle_websocket_message (.chatMessage chat_id inMid content inSid inTs)
        S cm freshId now).toSelf = [] ∧
    (∀ d ∈ (handle_websocket_message (.chatMessage chat_id inMid content inSid inTs)
        S cm freshId now).deliveries,
      d.1 ≠ S ∧ d.2 = WsMessage.chatMessage chat_id freshId content S now) ∧
    (∀ ps, mapFind? cm.chat_participants chat_id = some ps →
      ∀ v ∈ ps, v ≠ S → (mapFind? cm.connections v).isSome →
        (v, WsMessage.chatMessage chat_id freshId content S now) ∈
          (handle_websocket_message (.chatMessage chat_id inMid content inSid inTs)
            S cm freshId now).deliveries) := by
  refine ⟨rfl, ?_, ?_⟩
  · intro d hd
    exact send_to_chat_not_excluded cm chat_id _ S d hd
  · intro ps hps v hv hvne hreg
    exact send_to_chat_complete cm chat_id _ S v ps hps hv hvne hreg

/-- C4, witness: users 1 (= A) and 2 (= B) are registered and members of room
3; A sends "hi"; B receives the envelope restamped with fresh ID 99, timestamp
5 and sender A, and the full delivery list shows A itself receives nothing. -/
theorem C4_witness :
    (2, WsMessage.chatMessage 3 99 "hi" 1 5) ∈
      (handle_websocket_message (.chatMessage 3 111 "hi" 42 7) 1
        ⟨[(1, 10), (2, 20)], [(3, [1, 2])]⟩ 99 5).deliveries ∧
    (handle_websocket_message (.chatMessage 3 111 "hi" 42 7) 1
        ⟨[(1, 10), (2, 20)], [(3, [1, 2])]⟩ 99 5).deliveries
      = [(2, WsMessage.chatMessage 3 99 "hi" 1 5)] :=
  ⟨(C4_chat_message_routing ⟨[(1, 10), (2, 20)], [(3, [1, 2])]⟩ 1 3 111 42 "hi" 7 99 5).2.2
      [1, 2] rfl 2 (by decide) (by decide) (by decide),
   by decide⟩

/-- C9. A client cannot spoof identity or metadata: for each of the three
routed inbound variants, two inbound envelopes differing only in their
client-supplied `message_id`, `sender_id`/`user_id` or `timestamp` fields
produce IDENTICAL router output (same destinations, same payloads), and every
delivered payload is stamped with the authenticated user `S` (and, for chat
messages, the server-generated ID and timestamp). -/
theorem C9_no_spoofing (cm : ConnectionManager) (S chat_id : Uuid) (content : String)
    (freshId : Uuid) (now : Timestamp)
    (mid₁ sid₁ : Uuid) (ts₁ : Timestamp) (mid₂ sid₂ : Uuid) (ts₂ : Timestamp)
    (ua ub : Uuid) :
    handle_websocket_message (.chatMessage chat_id mid₁ content sid₁ ts₁) S cm freshId now
      = handle_websocket_message (.chatMessage chat_id mid₂ content sid₂ ts₂) S cm freshId now ∧
    handle_websocket_message (.typingStart chat_id ua) S cm freshId now
      = handle_websocket_message (.typingStart chat_id ub) S cm freshId now ∧
    handle_websocket_message (.typingStop chat_id ua) S cm freshId now
      = handle_websocket_message (.typingStop chat_id ub) S cm freshId now ∧
    (∀ d ∈ (handle_websocket_message (.chatMessage chat_id mid₁ content sid₁ ts₁)
        S cm freshId now).deliveries,
      d.2 = WsMessage.chatMessage chat_id freshId content S now) ∧
    (∀ d ∈ (handle_websocket_message (.typingStart chat_id ua) S cm freshId now).deliveries,
      d.2 = WsMessage.typingStart chat_id S) ∧
    (∀ d ∈ (handle_websocket_message (.typingStop chat_id ua) S cm freshId now).deliveries,
      d.2 = WsMessage.typingStop chat_id S) := by
  refine ⟨rfl, rfl, rfl, ?_, ?_, ?_⟩
  · intro d hd
    exact (send_to_chat_not_excluded cm chat_id _ S d hd).2
  · intro d hd
    exact (send_to_chat_not_excluded cm chat_id _ S d hd).2
  · intro d hd
    exact (send_to_chat_not_excluded cm chat_id _ S d hd).2

/-- C9, witness: with users 1 and 2 registered in room 3, an inbound chat
message whose spoofed `sender_id` is 42 and one whose spoofed `sender_id` is 77
(with different spoofed IDs and timestamps) route identically, and the one
delivery to user 2 is stamped with the authenticated sender 1. -/
theorem C9_witness :
    handle_websocket_message (.chatMessage 3 111 "hi" 42 7) 1
        ⟨[(1, 10), (2, 20)], [(3, [1, 2])]⟩ 99 5
      = handle_websocket_message (.chatMessage 3 222 "hi" 77 8) 1
        ⟨[(1, 10), (2, 20)], [(3, [1, 2])]⟩ 99 5 ∧
    (2, WsMessage.chatMessage 3 99 "hi" 1 5).2 = WsMessage.chatMessage 3 99 "hi" 1 5 :=
  ⟨(C9_no_spoofing ⟨[(1, 10), (2, 20)], [(3, [1, 2])]⟩ 1 3 "hi" 99 5
      111 42 7 222 77 8 0 0).1,
   (C9_no_spoofing ⟨[(1, 10), (2, 20)], [(3, [1, 2])]⟩ 1 3 "hi" 99 5
      111 42 7 222 77 8 0 0).2.2.2.1 (2, WsMessage.chatMessage 3 99 "hi" 1 5) (by decide)⟩

/-- C10, witness: in the state where room 1 has exactly member 2, leaving room
1 as non-member 3 and leaving the absent room 5 both leave the index unchanged. -/
theorem C10_witness :
    remove_user_from_chat ⟨[], [(1, [2])]⟩ 1 3 = ⟨[], [(1, [2])]⟩ ∧
    remove_user_from_chat ⟨[], [(1, [2])]⟩ 5 2 = ⟨[], [(1, [2])]⟩ :=
  ⟨C10_leave_absent_noop ⟨[], [(1, [2])]⟩ 1 3 (by unfold NoEmptyRooms; decide)
      (by intro ps h; simp [mapFind?] at h; subst h; decide),
   C10_leave_absent_noop ⟨[], [(1, [2])]⟩ 5 2 (by unfold NoEmptyRooms; decide)
      (by intro ps h; simp [mapFind?] at h)⟩

end WsModel
